import Mathlib

/-!
Verification development for the builder / parse-pipeline core of the
`ajv-ts` library (a fluent JSON-Schema builder with runtime validation
delegated to an external engine).

The shallow embedding below is translated from `src/src/builder.ts`
(the snapshot whose line numbers the analysed properties reference):

* `JsValue` models the JavaScript/JSON value universe that flows
  through the pipeline (objects are insertion-ordered key/value lists,
  matching `Object.entries` iteration order and JS property
  assignment).
* `JsErr` models `Error` objects: a message plus a `cause`.  Throwing
  user callbacks are modelled as `JsValue -> Except JsErr JsValue`.
* `Builder` models a `SchemaBuilder` instance: its schema fragment,
  the preprocess list, the postprocess (function, target builder)
  list, the refine list, the registered default and the nullability
  flag.
* `safeParse`, `validate`, `parse` mirror
  `SchemaBuilder.safeParse/_transform/_safeParseRaw/validate/parse`
  (builder.ts lines 375-521).
* An explicit-store model (`ObjStore`) embeds the Object-builder
  structural operations (`pick`, `omit`, `extend`, `merge`, `strict`,
  `keyof`) where reference sharing between builders matters.

The external validation engine (AJV) is not part of the repository
sources; following the system specification of the engine adapter it
is modelled by `ajvValidate`, which implements the JSON-Schema `type`
keyword and treats every other keyword as delegated (accepting).
-/

set_option autoImplicit false

namespace AjvTs

/-- JavaScript value universe used by the parse pipeline.  Objects are
insertion-ordered association lists, mirroring JS object semantics
(`Object.entries` order, in-place update on assignment). -/
inductive JsValue : Type where
  | undefined : JsValue
  | null : JsValue
  | bool (b : Bool) : JsValue
  | num (n : Int) : JsValue
  | str (s : String) : JsValue
  | arr (elems : List JsValue) : JsValue
  | obj (fields : List (String × JsValue)) : JsValue

mutual

/-- Structural equality test on JS values (the claims only compare
primitives, so this coincides with the SameValueZero equality used by
`Set` deduplication on the values that actually occur). -/
def beqVal : JsValue → JsValue → Bool
  | .undefined, .undefined => true
  | .null, .null => true
  | .bool a, .bool b => a == b
  | .num a, .num b => a == b
  | .str a, .str b => a == b
  | .arr xs, .arr ys => beqValList xs ys
  | .obj fs, .obj gs => beqValFields fs gs
  | _, _ => false

def beqValList : List JsValue → List JsValue → Bool
  | [], [] => true
  | x :: xs, y :: ys => beqVal x y && beqValList xs ys
  | _, _ => false

def beqValFields : List (String × JsValue) → List (String × JsValue) → Bool
  | [], [] => true
  | (k, v) :: fs, (l, w) :: gs => k == l && beqVal v w && beqValFields fs gs
  | _, _ => false

end

instance : BEq JsValue := ⟨beqVal⟩

namespace JsValue

/-- JS truthiness: `undefined`, `null`, `false`, `0` and the empty
string are falsy, everything else is truthy. -/
def truthy : JsValue → Bool
  | .undefined => false
  | .null => false
  | .bool b => b
  | .num n => n != 0
  | .str s => s ≠ ""
  | .arr _ => true
  | .obj _ => true

/-- Nullish check (`x ?? y` picks `y` exactly when `x` is nullish). -/
def isNullish : JsValue → Bool
  | .undefined => true
  | .null => true
  | _ => false

end JsValue

/-- JS property assignment `o[k] = v` on an association list: updates
the first binding of `k` in place (keeping its position) or appends a
new binding at the end, exactly as JS objects behave. -/
def setKey : List (String × JsValue) → String → JsValue → List (String × JsValue)
  | [], k, v => [(k, v)]
  | (k', v') :: rest, k, v =>
      if k' = k then (k, v) :: rest else (k', v') :: setKey rest k v

/-- JS property read `o[k]` on an association list; `undefined` when
the key is absent. -/
def getKey : List (String × JsValue) → String → JsValue
  | [], _ => .undefined
  | (k', v') :: rest, k => if k' = k then v' else getKey rest k

/-- JS property read `x.k`: association-list lookup on objects,
`undefined` on every other value (as for JS primitives). -/
def jsGet : JsValue → String → JsValue
  | .obj fs, k => getKey fs k
  | _, _ => .undefined

/-- JS property assignment `x.k = v`: updates objects, leaves any
other value unchanged. -/
def jsSet : JsValue → String → JsValue → JsValue
  | .obj fs, k, v => .obj (setKey fs k v)
  | other, _, _ => other

mutual

/-- JS `Error` model: message plus `cause` payload. -/
inductive JsErr : Type where
  | mk (msg : String) (cause : ErrCause) : JsErr

/-- The `cause` payloads produced by the builder core. -/
inductive ErrCause : Type where
  /-- no `cause` option. -/
  | none : ErrCause
  /-- `cause: e` for a caught exception `e` (the pattern
  `new Error(e.message, ...)` re-raising with the exception as cause). -/
  | exn (e : JsErr) : ErrCause
  /-- the structured payload of an engine validation failure
  (`cause: \x7b error: firstError, debug: ... \x7d` in `_safeParseRaw`),
  recording the schema and the validated value. -/
  | ajvData (schema data : JsValue) : ErrCause
  /-- the structured payload of a refine signal
  (`cause: \x7b refine: res, debug: ... \x7d` in the refine loop). -/
  | refineSignal (res : JsValue) : ErrCause

end

namespace JsErr

def msg : JsErr → String
  | .mk m _ => m

/-- The wrapping pattern `new Error(e.message, ...cause e...)` used at
builder.ts lines 396-399 (transform catch) and 429-433 (engine catch). -/
def wrap (e : JsErr) : JsErr := .mk e.msg (.exn e)

/-- Plain error without cause. -/
def plain (m : String) : JsErr := .mk m .none

end JsErr

/-- Modelled from the spec: the JSON-Schema `type` keyword check of
the external validation engine (the AJV collaborator is a dependency,
not part of the repository sources; section 4.6 of the specification
defines its contract).  This is the standard JSON-Schema mapping from
type names to value classes; note that `undefined` belongs to none of
them. -/
def jsTypeMatches (t : String) : JsValue → Bool
  | .undefined => false
  | .null => t = "null"
  | .bool _ => t = "boolean"
  | .num _ => t = "number" || t = "integer"
  | .str _ => t = "string"
  | .arr _ => t = "array"
  | .obj _ => t = "object"

/-- Modelled from the spec: the external validation engine
(`ajv.validate(schema, data)`).  It enforces the `type` keyword
(string or array-of-strings form); every other keyword is the
delegated engine logic that the specification scopes out, modelled
here as accepting. -/
def ajvValidate (schema data : JsValue) : Bool :=
  match jsGet schema "type" with
  | .str t => jsTypeMatches t data
  | .arr ts => ts.any fun tv =>
      match tv with
      | .str t => jsTypeMatches t data
      | _ => false
  | _ => true

/-- `SafeParseResult`: the discriminated success/failure result of
`safeParse` (builder.ts lines 38-50).  Both variants carry the
`input` field. -/
inductive SafeParseResult : Type where
  | ok (data : JsValue) (input : JsValue) : SafeParseResult
  | fail (error : JsErr) (input : JsValue) : SafeParseResult

namespace SafeParseResult

/-- The `success` discriminant. -/
def success : SafeParseResult → Bool
  | .ok _ _ => true
  | .fail _ _ => false

/-- The `input` field (present on both variants). -/
def input : SafeParseResult → JsValue
  | .ok _ i => i
  | .fail _ i => i

/-- The `data` field; `undefined` on the failure variant (where the
field is absent). -/
def dataD : SafeParseResult → JsValue
  | .ok d _ => d
  | .fail _ _ => .undefined

/-- The mutation `result.input = input` performed by `safeParse` on
every stage result. -/
def setInput : SafeParseResult → JsValue → SafeParseResult
  | .ok d _, i => .ok d i
  | .fail e _, i => .fail e i

end SafeParseResult

/-- A pipeline callback (`preprocess`/`refine` entry): a JS function
from the current value to a result, which may throw (`Except.error`). -/
abbrev JsFn := JsValue → Except JsErr JsValue

mutual

/-- A `SchemaBuilder` instance (builder.ts, class `SchemaBuilder`):
its JSON-schema fragment, the `preFns` list, the `postFns` list of
(function, target builder) pairs, the `refineFns` list, the value of
the private `_default` field (`undefined` when `default(v)` was never
called) and the `isNullable` flag. -/
inductive Builder : Type where
  | mk (schema : JsValue) (preFns : List JsFn) (postFns : PostChain)
      (refineFns : List JsFn) (deflt : JsValue) (isNullable : Bool) : Builder

/-- The ordered `postFns` list: each entry pairs a transform with its
target builder, as pushed by `postprocess(fn, schema)`. -/
inductive PostChain : Type where
  | nil : PostChain
  | cons (fn : JsFn) (target : Builder) (rest : PostChain) : PostChain

end

namespace PostChain

/-- Appending one `(fn, target)` pair, as `postprocess` does with
`this.postFns.push(...)`. -/
def push : PostChain → JsFn → Builder → PostChain
  | .nil, f, t => .cons f t .nil
  | .cons g u rest, f, t => .cons g u (rest.push f t)

end PostChain

namespace Builder

def schema : Builder → JsValue
  | .mk s _ _ _ _ _ => s

def preFns : Builder → List JsFn
  | .mk _ p _ _ _ _ => p

def postFns : Builder → PostChain
  | .mk _ _ p _ _ _ => p

def refineFns : Builder → List JsFn
  | .mk _ _ _ r _ _ => r

def deflt : Builder → JsValue
  | .mk _ _ _ _ d _ => d

def isNullable : Builder → Bool
  | .mk _ _ _ _ _ n => n

/-- Fresh builder around a fragment, with the empty pipeline state the
`SchemaBuilder` constructor initialises. -/
def ofSchema (s : JsValue) : Builder := .mk s [] .nil [] .undefined false

/-- `preprocess(fn)` (builder.ts 158-164): appends to `preFns` and
returns the same builder.  The runtime not-a-function guard is
unrepresentable here since `fn` is a function by type. -/
def preprocess : Builder → JsFn → Builder
  | .mk s pre post refi d n, f => .mk s (pre ++ [f]) post refi d n

/-- `postprocess(fn, schema)` (builder.ts 173-179): appends the pair
to `postFns`. -/
def postprocess : Builder → JsFn → Builder → Builder
  | .mk s pre post refi d n, f, t => .mk s pre (post.push f t) refi d n

/-- `refine(fn)` (builder.ts 198-204): appends to `refineFns`. -/
def refine : Builder → JsFn → Builder
  | .mk s pre post refi d n, f => .mk s pre post (refi ++ [f]) d n

/-- `default(value)` (builder.ts 242-246): sets `schema.default` and
the private `_default` field. -/
def setDefault : Builder → JsValue → Builder
  | .mk s pre post refi _ n, v => .mk (jsSet s "default" v) pre post refi v n

end Builder

/-- First-occurrence deduplication, the behaviour of the JS idiom
`[...new Set(list)]` (insertion order, duplicates dropped). -/
def dedupAux : List JsValue → List JsValue → List JsValue
  | [], _ => []
  | x :: xs, seen =>
      if seen.any (beqVal · x) then dedupAux xs seen
      else x :: dedupAux xs (x :: seen)

def dedup (l : List JsValue) : List JsValue := dedupAux l []

namespace Builder

/-- `nullable()` (builder.ts 124-134): sets the `isNullable` flag and
`schema.nullable = true`, then rewrites `schema.type` to the
deduplicated array extended with the string `null` (both the
already-array and the scalar case use `[...new Set(...)]`). -/
def nullable : Builder → Builder
  | .mk s pre post refi d _ =>
      let s1 := jsSet s "nullable" (.bool true)
      let t := jsGet s1 "type"
      let t1 : JsValue :=
        match t with
        | .arr xs => .arr (dedup (xs ++ [.str "null"]))
        | other => .arr (dedup [other, .str "null"])
      .mk (jsSet s1 "type" t1) pre post refi d true

/-- `optional()` (builder.ts 112-114) delegates to `nullable()`. -/
def optional (b : Builder) : Builder := b.nullable

end Builder

/-- Left-to-right composition of the `preFns` reduce inside
`_transform` (builder.ts 379-393, the plain-function branch): each function receives the previous output; the first throw
escapes to the surrounding catch. -/
def runFns : List JsFn → JsValue → Except JsErr JsValue
  | [], v => .ok v
  | f :: fs, v =>
      match f v with
      | .ok w => runFns fs w
      | .error e => .error e

/-- `_transform(input, preFns)` (builder.ts 375-405) specialised to a
list of plain functions: the empty-list branch returns a success
carrying the input; otherwise the reduce runs and a caught throw is
rewrapped with the exception as cause. -/
def transformList (fns : List JsFn) (input : JsValue) : SafeParseResult :=
  match fns with
  | [] => .ok input input
  | f :: fs =>
      match runFns (f :: fs) input with
      | .ok out => .ok out input
      | .error e => .fail (JsErr.wrap e) input

/-- The nullish-coalescing substitution `input ?? this._default` at
builder.ts line 408 (`_safeParseRaw`). -/
def dataOrDefault (deflt input : JsValue) : JsValue :=
  if input.isNullish then deflt else input

/-- `_safeParseRaw(input)` (builder.ts 407-440): substitutes the
default for nullish input, asks the engine, and either returns the
validated value as data or a failure wrapping the first engine
error.  The engine model is total, so the catch branch (which wraps
an engine exception) has no counterpart. -/
def safeParseRaw (schema deflt input : JsValue) : SafeParseResult :=
  let d := dataOrDefault deflt input
  if ajvValidate schema d then .ok d input
  else .fail (.mk "validation failed" (.ajvData schema d)) input

/-- The refine loop of `safeParse` (builder.ts 467-496): runs the
refine functions left to right on the post-stage data; a function
returning a value other than `undefined` produces the
`refine error` failure, a throwing function produces a failure whose
error is the thrown exception itself; both carry the post-stage data
in the `input` field.  When every refine passes, the post-stage
result is returned unchanged. -/
def runRefines (fns : List JsFn) (d : JsValue) (post : SafeParseResult) :
    SafeParseResult :=
  match fns with
  | [] => post
  | r :: rs =>
      match r d with
      | .error e => .fail e d
      | .ok v =>
          match v with
          | .undefined => runRefines rs d post
          | _ => .fail (.mk "refine error" (.refineSignal v)) d

mutual

/-- `safeParse(input)` (builder.ts 447-498).  Stage order: preprocess
(`_transform` on `preFns`), engine validation (`_safeParseRaw` on the
preprocessed data), postprocess (`_transform` on `postFns`, where each
step feeds its output to the target builder via a recursive
`safeParse`), then the refine loop.  Each stage result has its
`input` field overwritten with the original call-time input before
the success check; the refine loop instead reports the post-stage
data as `input`.  (The `ajv.removeSchema` call at the top is engine
cache management with no observable effect in this model.) -/
def safeParse (b : Builder) (input : JsValue) : SafeParseResult :=
  let pre := (transformList b.preFns input).setInput input
  match pre with
  | .fail _ _ => pre
  | .ok preData _ =>
      let parsed := (safeParseRaw b.schema b.deflt preData).setInput input
      match parsed with
      | .fail _ _ => parsed
      | .ok parsedData _ =>
          let post := (transformChain b.postFns parsedData).setInput input
          match post with
          | .fail _ _ => post
          | .ok postData _ => runRefines b.refineFns postData post
termination_by (sizeOf b, 2)
decreasing_by
  cases b with
  | mk s pre post refi d n => simp [Builder.postFns]; omega

/-- `_transform(input, postFns)` (builder.ts 375-405) on the pair
list: empty list returns a success carrying the input; otherwise the
reduce runs, and a throw escaping it (a step function throwing, or
the re-throw of a previous failed result) is wrapped with the
exception as cause. -/
def transformChain (chain : PostChain) (input : JsValue) : SafeParseResult :=
  match chain with
  | .nil => .ok input input
  | .cons f target rest =>
      match runChain (.cons f target rest) (.ok input input) with
      | .ok r => r
      | .error e => .fail (JsErr.wrap e) input
termination_by (sizeOf chain, 1)

/-- The reduce over `postFns` inside `_transform` (builder.ts
379-393, the pair branch): a previously failed result is re-thrown;
otherwise the step function transforms the previous data (possibly
throwing) and the target builder parses the transformed value, its
result becoming the accumulator. -/
def runChain (chain : PostChain) (prev : SafeParseResult) :
    Except JsErr SafeParseResult :=
  match chain with
  | .nil => .ok prev
  | .cons f target rest =>
      match prev with
      | .fail e _ => .error e
      | .ok d _ =>
          match f d with
          | .error e => .error e
          | .ok ft => runChain rest (safeParse target ft)
termination_by (sizeOf chain, 0)

end

/-- `validate(input)` (builder.ts 504-507): the boolean success flag
of `safeParse`. -/
def validate (b : Builder) (input : JsValue) : Bool :=
  (safeParse b input).success

/-- `parse(input)` (builder.ts 515-521): data on success, raises the
result error on failure. -/
def parse (b : Builder) (input : JsValue) : Except JsErr JsValue :=
  match safeParse b input with
  | .ok d _ => .ok d
  | .fail e _ => .error e

/-- The value handed to the engine by `safeParse` for a given builder
and call-time input: the preprocessed data after the
`input ?? this._default` substitution of `_safeParseRaw`
(builder.ts 408, 410). -/
def engineArg (b : Builder) (input : JsValue) : JsValue :=
  dataOrDefault b.deflt (transformList b.preFns input).dataD

/-- The preprocess stage of `safeParse` with the original input
restored, as an observable intermediate. -/
def preStage (b : Builder) (input : JsValue) : SafeParseResult :=
  (transformList b.preFns input).setInput input

/-- The engine-validation stage of `safeParse` (propagating an
earlier failure). -/
def rawStage (b : Builder) (input : JsValue) : SafeParseResult :=
  match preStage b input with
  | .fail e i => .fail e i
  | .ok v _ => (safeParseRaw b.schema b.deflt v).setInput input

/-- The postprocess stage of `safeParse` (propagating an earlier
failure). -/
def postStage (b : Builder) (input : JsValue) : SafeParseResult :=
  match rawStage b input with
  | .fail e i => .fail e i
  | .ok d _ => (transformChain b.postFns d).setInput input

/-- Stage decomposition of `safeParse`: the pipeline is the three
stages followed by the refine loop on the post-stage data. -/
theorem safeParse_as_stages (b : Builder) (input : JsValue) :
    safeParse b input =
      match postStage b input with
      | .fail e i => .fail e i
      | .ok pd _ => runRefines b.refineFns pd (.ok pd input) := by
  rw [safeParse]
  cases h1 : transformList b.preFns input with
  | fail e i => simp [preStage, rawStage, postStage, h1, SafeParseResult.setInput]
  | ok v i =>
      cases h2 : safeParseRaw b.schema b.deflt v with
      | fail e j => simp [preStage, rawStage, postStage, h1, h2, SafeParseResult.setInput]
      | ok d j =>
          cases h3 : transformChain b.postFns d with
          | fail e k =>
              simp [preStage, rawStage, postStage, h1, h2, h3, SafeParseResult.setInput]
          | ok pd k =>
              simp [preStage, rawStage, postStage, h1, h2, h3, SafeParseResult.setInput]

theorem setInput_input (r : SafeParseResult) (x : JsValue) :
    (r.setInput x).input = x := by
  cases r <;> rfl

theorem preStage_input (b : Builder) (x : JsValue) : (preStage b x).input = x := by
  unfold preStage; exact setInput_input _ _

theorem rawStage_input (b : Builder) (x : JsValue) : (rawStage b x).input = x := by
  unfold rawStage
  cases h : preStage b x with
  | fail e i =>
      have h2 := preStage_input b x
      rw [h] at h2
      simpa [SafeParseResult.input] using h2
  | ok v i => simp [setInput_input]

theorem postStage_input (b : Builder) (x : JsValue) : (postStage b x).input = x := by
  unfold postStage
  cases h : rawStage b x with
  | fail e i =>
      have := rawStage_input b x
      rw [h] at this
      simpa [SafeParseResult.input] using this
  | ok v i => simp [setInput_input]

/-- The refine loop either returns its success argument or fails with
the post-stage data as `input`. -/
theorem runRefines_cases (fns : List JsFn) (d : JsValue) (post : SafeParseResult) :
    runRefines fns d post = post ∨ ∃ e, runRefines fns d post = .fail e d := by
  induction fns with
  | nil => left; rfl
  | cons r rs ih =>
      rw [runRefines]
      cases r d with
      | error e => right; exact ⟨e, rfl⟩
      | ok v =>
          cases v with
          | undefined => exact ih
          | null => right; exact ⟨_, rfl⟩
          | bool b => right; exact ⟨_, rfl⟩
          | num n => right; exact ⟨_, rfl⟩
          | str s => right; exact ⟨_, rfl⟩
          | arr l => right; exact ⟨_, rfl⟩
          | obj f => right; exact ⟨_, rfl⟩

/-- A throw inside the preprocess reduce surfaces as the wrapped
failure of `_transform`. -/
theorem transformList_error (fns : List JsFn) (x : JsValue) (e : JsErr)
    (h : runFns fns x = .error e) :
    transformList fns x = .fail (JsErr.wrap e) x := by
  cases fns with
  | nil => simp [runFns] at h
  | cons f fs => rw [transformList]; rw [h]

/-- A successful preprocess reduce surfaces as a success carrying the
original input. -/
theorem transformList_ok (fns : List JsFn) (x v : JsValue)
    (h : runFns fns x = .ok v) :
    transformList fns x = .ok v x := by
  cases fns with
  | nil => simp [runFns] at h; simp [transformList, h]
  | cons f fs => rw [transformList]; rw [h]

theorem getKey_setKey_self (F : List (String × JsValue)) (k : String) (v : JsValue) :
    getKey (setKey F k v) k = v := by
  induction F with
  | nil => simp [setKey, getKey]
  | cons kv rest ih =>
      obtain ⟨k', v'⟩ := kv
      by_cases h : k' = k
      · simp [setKey, getKey, h]
      · simp [setKey, getKey, h, ih]

theorem getKey_setKey_ne (F : List (String × JsValue)) (k l : String) (v : JsValue)
    (h : l ≠ k) : getKey (setKey F k v) l = getKey F l := by
  induction F with
  | nil => simp [setKey, getKey, Ne.symm h]
  | cons kv rest ih =>
      obtain ⟨k', v'⟩ := kv
      by_cases hk : k' = k
      · subst hk
        simp [setKey, getKey, Ne.symm h]
      · simp [setKey, getKey, hk, ih]

theorem getD_append_lt {α : Type} (l : List α) (a d : α) (i : Nat)
    (h : i < l.length) : (l ++ [a]).getD i d = l.getD i d := by
  induction l generalizing i with
  | nil => simp at h
  | cons x xs ih =>
      cases i with
      | zero => rfl
      | succ j => simpa using ih j (by simpa using h)

theorem getD_append_len {α : Type} (l : List α) (a d : α) :
    (l ++ [a]).getD l.length d = a := by
  induction l with
  | nil => rfl
  | cons x xs ih => simp only [List.cons_append, List.length_cons, List.getD_cons_succ]; exact ih

theorem getD_set_self {α : Type} (l : List α) (a d : α) (i : Nat)
    (h : i < l.length) : (l.set i a).getD i d = a := by
  induction l generalizing i with
  | nil => simp at h
  | cons x xs ih =>
      cases i with
      | zero => rfl
      | succ j => simpa using ih j (by simpa using h)

theorem getD_set_ne {α : Type} (l : List α) (a d : α) (i j : Nat)
    (h : i ≠ j) : (l.set i a).getD j d = l.getD j d := by
  induction l generalizing i j with
  | nil => simp [List.set]
  | cons x xs ih =>
      cases i with
      | zero =>
          cases j with
          | zero => exact absurd rfl h
          | succ j' => rfl
      | succ i' =>
          cases j with
          | zero => rfl
          | succ j' => simpa using ih i' j' (by omega)

/-- `number()` (builder.ts 523-526): fragment with type `number`. -/
def numberB : Builder := .ofSchema (.obj [("type", .str "number")])

/-- `string()`: fragment with type `string`. -/
def stringB : Builder := .ofSchema (.obj [("type", .str "string")])

/-- `boolean()` (builder.ts 941-945): fragment with type
`boolean`. -/
def booleanB : Builder := .ofSchema (.obj [("type", .str "boolean")])

/-- `null()` (builder.ts 953-960): fragment with type `null`. -/
def nullB : Builder := .ofSchema (.obj [("type", .str "null")])

/-- `array(...definitions)` (builder.ts 1271-1273): fragment
`type: array, items: [child fragments], minItems: 0`. -/
def arrayB (defs : List Builder) : Builder :=
  .ofSchema (.obj
    [("type", .str "array"), ("items", .arr (defs.map Builder.schema)),
      ("minItems", .num 0)])

/-- `const(value)` (builder.ts 1567-1586): fragment with a single
`const` key. -/
def constantB (v : JsValue) : Builder := .ofSchema (.obj [("const", v)])

/-- The `UnionSchemaBuilder` constructor / top-level `or`
(builder.ts 1588-1602): fragment `anyOf: [child fragments]`. -/
def unionB (schemas : List Builder) : Builder :=
  .ofSchema (.obj [("anyOf", .arr (schemas.map Builder.schema))])

/-- The `IntersectionSchemaBuilder` constructor / top-level `and`
(builder.ts 1604-1624): fragment `allOf: [child fragments]`. -/
def intersectionB (schemas : List Builder) : Builder :=
  .ofSchema (.obj [("allOf", .arr (schemas.map Builder.schema))])

namespace Builder

/-- The `and(...others)` method (builder.ts 301-307): delegates to the
top-level constructor seeded with the receiver first. -/
def and (b : Builder) (others : List Builder) : Builder :=
  intersectionB (b :: others)

/-- The `or(...others)` method (builder.ts 313-315): same seeding for
the union constructor. -/
def or (b : Builder) (others : List Builder) : Builder :=
  unionB (b :: others)

end Builder

/-- The runtime guard error of `ArraySchemaBuilder.minLength`
(builder.ts 1353-1355). -/
def lengthTypeError : JsErr :=
  .plain "Only Positive and non floating numbers are supported."

/-- `ArraySchemaBuilder.minLength(value)` (builder.ts 1344-1358):
runtime guard throwing for negative values, then sets
`schema.minItems`. -/
def arrMinLength (b : Builder) (n : Int) : Except JsErr Builder :=
  if n < 0 then .error lengthTypeError
  else .ok (match b with
    | .mk s pre post refi d nl => .mk (jsSet s "minItems" (.num n)) pre post refi d nl)

/-- `ArraySchemaBuilder.maxLength(value)` (builder.ts 1300-1311): no
runtime guard, unconditionally sets `schema.maxItems`. -/
def arrMaxLength (b : Builder) (n : Int) : Builder :=
  match b with
  | .mk s pre post refi d nl => .mk (jsSet s "maxItems" (.num n)) pre post refi d nl

/-- `ArraySchemaBuilder.length(value)` (builder.ts 1322-1332):
`minLength(value).maxLength(value)`. -/
def arrLength (b : Builder) (n : Int) : Except JsErr Builder :=
  match arrMinLength b n with
  | .error e => .error e
  | .ok b1 => .ok (arrMaxLength b1 n)

/-!
Explicit-store model of `ObjectSchemaBuilder` and its structural
operations (builder.ts 964-1241).  These methods share mutable
JavaScript objects between builder instances (`omit` reuses the
receiver definition map, `extend`/`merge` mutate the receiver
fragment), so an Object builder is modelled as a pair of references
into a store holding the definition maps and the fragments.  A
definition map binds property names to the child builder fragments
(`d.schema` is the only part of a child the object code reads, and
none of the operations below mutates a child). -/

/-- A definition map: property name to child fragment, in insertion
order. -/
abbrev DefMap := List (String × JsValue)

/-- The store of definition-map objects and fragment objects;
references are list indices. -/
structure ObjStore : Type where
  defs : List DefMap
  frags : List JsValue

/-- An object builder: a reference to its definition map and a
reference to its fragment. -/
structure ObjRef : Type where
  defRef : Nat
  fragRef : Nat

namespace ObjStore

def getDef (s : ObjStore) (i : Nat) : DefMap := s.defs.getD i []

def getFrag (s : ObjStore) (i : Nat) : JsValue := s.frags.getD i .undefined

end ObjStore

/-- The `properties` object built by the `ObjectSchemaBuilder`
constructor: starting from the empty object, one JS assignment
`properties[key] = d.schema` per definition entry. -/
def propsOf (d : DefMap) : List (String × JsValue) :=
  d.foldl (fun p kv => setKey p kv.1 kv.2) []

/-- The fragment assembled by the `ObjectSchemaBuilder` constructor
(builder.ts 971-982): `type: object` with a fresh `properties` object
filled from the definition map (always present, `\x7b\x7d` when the map is
empty). -/
def objectFragOf (d : DefMap) : JsValue :=
  .obj [("type", .str "object"), ("properties", .obj (propsOf d))]

/-- Allocates a fresh object fragment for an existing definition-map
reference (the `new ObjectSchemaBuilder(def)` call where `def` may be
a shared object). -/
def mkObjectRef (s : ObjStore) (defRef : Nat) : ObjStore × ObjRef :=
  ({ s with frags := s.frags ++ [objectFragOf (s.getDef defRef)] },
    ⟨defRef, s.frags.length⟩)

/-- `object(def)` (builder.ts 1237-1241): stores the definition map
object and builds the fragment from it. -/
def objectNew (s : ObjStore) (d : DefMap) : ObjStore × ObjRef :=
  mkObjectRef { s with defs := s.defs ++ [d] } s.defs.length

/-- `pick(...keys)` (builder.ts 1189-1198): filters the definition
entries whose key some element of `keys` equals (the found key must
additionally be truthy, because the code tests the result of
`keys.find` for truthiness), then constructs a new builder from the
fresh filtered map. -/
def pickOp (s : ObjStore) (a : ObjRef) (keys : List String) : ObjStore × ObjRef :=
  let picked := (s.getDef a.defRef).filter fun kv =>
    match keys.find? (· = kv.1) with
    | some k => k ≠ ""
    | none => false
  objectNew s picked

/-- `omit(...keys)` (builder.ts 1213-1218): performs
`delete this.def[k]` for each key on the receiver definition map,
then constructs a new builder around that same map object. -/
def omitOp (s : ObjStore) (a : ObjRef) (keys : List String) : ObjStore × ObjRef :=
  let newDef := (s.getDef a.defRef).filter fun kv => ¬ keys.contains kv.1
  mkObjectRef { s with defs := s.defs.set a.defRef newDef } a.defRef

/-- `strict()` (builder.ts 1085-1088): sets
`additionalProperties = false` on the receiver fragment and returns
the receiver. -/
def strictOp (s : ObjStore) (r : ObjRef) : ObjStore :=
  { s with
    frags := s.frags.set r.fragRef
      (jsSet (s.getFrag r.fragRef) "additionalProperties" (.bool false)) }

/-- One JS assignment `schema.properties[key] = v` on a fragment. -/
def setProp (frag : JsValue) (k : String) (v : JsValue) : JsValue :=
  jsSet frag "properties" (jsSet (jsGet frag "properties") k v)

/-- Shallow union with argument precedence: the result of one JS
assignment per entry of `d` on top of `old`. -/
def unionProps (old : List (String × JsValue)) (d : DefMap) :
    List (String × JsValue) :=
  d.foldl (fun p kv => setKey p kv.1 kv.2) old

/-- `extend(def)` (builder.ts 1157-1165): resets `properties` to a
fresh empty object when it is missing or not an object, then performs
one assignment `properties[key] = def.schema` per entry of the
argument, mutating the receiver fragment; returns the receiver. -/
def extendOp (s : ObjStore) (a : ObjRef) (d : DefMap) : ObjStore × ObjRef :=
  let frag := s.getFrag a.fragRef
  let frag1 :=
    match jsGet frag "properties" with
    | .obj _ => frag
    | _ => jsSet frag "properties" (.obj [])
  let frag2 := d.foldl (fun fr kv => setProp fr kv.1 kv.2) frag1
  ({ s with frags := s.frags.set a.fragRef frag2 }, a)

/-- `Object.entries` on a JS value: the key/value pairs of an object,
empty for the values the builder code can pass here. -/
def objEntries : JsValue → List (String × JsValue)
  | .obj fs => fs
  | _ => []

/-- `merge(schema)` (builder.ts 1144-1149): iterates
`Object.entries(schema.schema)` — the top-level key/value entries of
the argument FRAGMENT, not its property map — and performs
`this.schema.properties[key] = value.schema` for each, where
`value.schema` is a JS property read on a fragment piece; mutates and
returns the receiver. -/
def mergeOp (s : ObjStore) (a b : ObjRef) : ObjStore × ObjRef :=
  let frag2 := (objEntries (s.getFrag b.fragRef)).foldl
    (fun fr kv => setProp fr kv.1 (jsGet kv.2 "schema")) (s.getFrag a.fragRef)
  ({ s with frags := s.frags.set a.fragRef frag2 }, a)

/-- The top-level `keyof(obj)` function (builder.ts 1636-1645):
throws when the fragment has no truthy `properties`, otherwise builds
`or(...Object.keys(properties).map(prop => constant(prop)))`, a
union-of-constants builder over the current property names. -/
def keyofFn (s : ObjStore) (a : ObjRef) : Except JsErr Builder :=
  let props := jsGet (s.getFrag a.fragRef) "properties"
  if props.truthy then
    let names := match props with
      | .obj fs => fs.map Prod.fst
      | _ => []
    .ok (unionB (names.map fun k => constantB (.str k)))
  else .error (.plain "cannot get keys from not an object")

/-!
Claim theorems.
-/

/-- C7: the Intersection builder produced by the `and(...others)`
method, or by the top-level `and`/`intersection` constructor, has the
fragment `allOf: [child fragments]` — the `allOf` combinator keyword
with the children in call order, the method seeding the receiver
first. -/
theorem c7_intersection_allOf (b : Builder) (others schemas : List Builder) :
    (Builder.and b others).schema
        = .obj [("allOf", .arr (Builder.schema b :: others.map Builder.schema))]
    ∧ (intersectionB schemas).schema
        = .obj [("allOf", .arr (schemas.map Builder.schema))] :=
  ⟨rfl, rfl⟩

/-- C6 (code bug): `nullable()` does rewrite `type` to an array that
contains the string `null` exactly once, also under a repeated call;
but for a builder with no registered default, `validate(null)` is
`false`, not `true`: `_safeParseRaw` replaces the nullish input by the
unset default (`undefined`) via `input ?? this._default`, and the
engine rejects `undefined` against every `type` — although it would
accept `null` itself against the mutated schema, as the last-but-one
conjunct shows. -/
theorem c6_nullable_null_rejected :
    jsGet (Builder.nullable stringB).schema "type"
        = .arr [.str "string", .str "null"]
    ∧ jsGet (Builder.nullable (Builder.nullable stringB)).schema "type"
        = .arr [.str "string", .str "null"]
    ∧ ajvValidate (Builder.nullable stringB).schema .null = true
    ∧ validate (Builder.nullable stringB) .null = false := by
  refine ⟨rfl, rfl, rfl, ?_⟩
  simp [validate, safeParse, transformList, SafeParseResult.setInput, safeParseRaw,
    dataOrDefault, ajvValidate, stringB, Builder.nullable, dedup, dedupAux, beqVal,
    jsSet, setKey, Builder.ofSchema, Builder.preFns, Builder.schema, Builder.deflt,
    Builder.postFns, Builder.refineFns, jsGet, getKey, JsValue.isNullish,
    jsTypeMatches, transformChain, runRefines, SafeParseResult.success]

/-- C9 counterexample: applied to an Object builder with an empty
definition map, the top-level `keyof` does not throw — the
constructor always initialises `properties` to the (truthy) empty
object, so the guard never fires and `keyof` returns a Union builder
with an empty `anyOf`. -/
theorem c9_counterexample :
    keyofFn (objectNew ⟨[], []⟩ []).1 (objectNew ⟨[], []⟩ []).2
      = .ok (Builder.ofSchema (.obj [("anyOf", .arr [])])) := rfl

/-- C9 (amended): `keyof` applied to an Object builder derives a
union-of-constants builder whose constants are exactly the current
property names; on an empty definition map it returns the empty
union rather than throwing, because the Object constructor always
initialises `properties` (the throw can only fire on a fragment
whose `properties` is falsy, which the constructor precludes). -/
theorem c9_keyof_property_names (s : ObjStore) (d : DefMap) :
    keyofFn (objectNew s d).1 (objectNew s d).2
      = .ok (unionB (((propsOf d).map Prod.fst).map fun k => constantB (.str k))) := by
  unfold keyofFn objectNew mkObjectRef
  simp [ObjStore.getFrag, ObjStore.getDef, getD_append_len, objectFragOf, jsGet,
    getKey, JsValue.truthy]

/-- C8 counterexample: `maxLength(-1)` on an Array builder does not
raise — there is no runtime guard in `maxLength` — and instead
records the negative bound on the fragment. -/
theorem c8_counterexample :
    jsGet (arrMaxLength (arrayB [numberB]) (-1)).schema "maxItems"
      = .num (-1) := rfl

/-- C8 (amended): on the Array builder `minLength(n)` and `length(n)`
raise the runtime type error for negative `n` and for non-negative
`n` set `minItems` (respectively both `minItems` and `maxItems`) to
`n`; `maxLength(n)` has no runtime guard and sets `maxItems = n` for
every `n`, negative values included. -/
theorem c8_array_length_guards (b : Builder) (F : List (String × JsValue)) (n : Int)
    (hs : b.schema = .obj F) :
    (n < 0 → arrMinLength b n = .error lengthTypeError
      ∧ arrLength b n = .error lengthTypeError)
    ∧ (0 ≤ n → ∃ b1, arrMinLength b n = .ok b1
        ∧ jsGet b1.schema "minItems" = .num n)
    ∧ jsGet (arrMaxLength b n).schema "maxItems" = .num n
    ∧ (0 ≤ n → ∃ b2, arrLength b n = .ok b2
        ∧ jsGet b2.schema "minItems" = .num n
        ∧ jsGet b2.schema "maxItems" = .num n) := by
  cases b with
  | mk s pre post refi dv nl =>
      simp only [Builder.schema] at hs
      subst hs
      refine ⟨?_, ?_, ?_, ?_⟩
      · intro hn
        constructor
        · simp [arrMinLength, hn]
        · simp [arrLength, arrMinLength, hn]
      · intro hn
        have h1 : arrMinLength (Builder.mk (.obj F) pre post refi dv nl) n
            = .ok (Builder.mk (jsSet (.obj F) "minItems" (.num n)) pre post refi dv nl) := by
          simp [arrMinLength, not_lt.mpr hn]
        exact ⟨_, h1, by simp [Builder.schema, jsSet, jsGet, getKey_setKey_self]⟩
      · simp [arrMaxLength, Builder.schema, jsSet, jsGet, getKey_setKey_self]
      · intro hn
        have h1 : arrMinLength (Builder.mk (.obj F) pre post refi dv nl) n
            = .ok (Builder.mk (jsSet (.obj F) "minItems" (.num n)) pre post refi dv nl) := by
          simp [arrMinLength, not_lt.mpr hn]
        have h2 : arrLength (Builder.mk (.obj F) pre post refi dv nl) n
            = .ok (Builder.mk (jsSet (jsSet (.obj F) "minItems" (.num n)) "maxItems" (.num n))
                pre post refi dv nl) := by
          simp [arrLength, h1, arrMaxLength]
        refine ⟨_, h2, ?_, ?_⟩
        · simp [Builder.schema, jsSet, jsGet]
          rw [getKey_setKey_ne _ _ _ _ (by decide)]
          exact getKey_setKey_self _ _ _
        · simp [Builder.schema, jsSet, jsGet, getKey_setKey_self]

/-- C8 witness: the amended theorem applied at the Array builder
`array(number())` with the concrete bounds `-1` and `2`. -/
theorem c8_witness :
    arrMinLength (arrayB [numberB]) (-1) = .error lengthTypeError
    ∧ (∃ b2, arrLength (arrayB [numberB]) 2 = .ok b2
        ∧ jsGet b2.schema "minItems" = .num 2
        ∧ jsGet b2.schema "maxItems" = .num 2) :=
  ⟨((c8_array_length_guards (arrayB [numberB]) _ (-1) rfl).1 (by norm_num)).1,
    (c8_array_length_guards (arrayB [numberB]) _ 2 rfl).2.2.2 (by norm_num)⟩

/-- C4 counterexample: `omit` does mutate the receiver.  For the
Object builder `A = object(\x7bx: number(), y: number()\x7d)`, the call
`A.omit('x')` deletes the key `x` from the definition map object that
`A` owns, so the map differs from its value before the call. -/
theorem c4_counterexample :
    (omitOp (objectNew ⟨[], []⟩ [("x", numberB.schema), ("y", numberB.schema)]).1
        (objectNew ⟨[], []⟩ [("x", numberB.schema), ("y", numberB.schema)]).2
        ["x"]).1.getDef
      (objectNew ⟨[], []⟩ [("x", numberB.schema), ("y", numberB.schema)]).2.defRef
      = [("y", numberB.schema)]
    ∧ (objectNew ⟨[], []⟩ [("x", numberB.schema), ("y", numberB.schema)]).1.getDef
        (objectNew ⟨[], []⟩ [("x", numberB.schema), ("y", numberB.schema)]).2.defRef
      = [("x", numberB.schema), ("y", numberB.schema)]
    ∧ ([("y", numberB.schema)] : DefMap)
        ≠ [("x", numberB.schema), ("y", numberB.schema)] := by
  refine ⟨rfl, rfl, by simp⟩

/-- C4 (amended): `pick` satisfies the claim in full — it builds a
fresh filtered definition map and a fresh fragment, leaves the
receiver definition map and fragment unchanged, and `strict()` on the
result does not touch the receiver fragment.  `omit` also allocates a
fresh fragment (so the receiver fragment, including
`additionalProperties`, is untouched and `strict()` on the result
cannot reach it), but it deletes the given keys from the receiver
definition map in place and the returned builder shares that same
map object instead of a copy. -/
theorem c4_pick_fresh_omit_shares (s : ObjStore) (a : ObjRef) (keys : List String)
    (hd : a.defRef < s.defs.length) (hf : a.fragRef < s.frags.length) :
    ((pickOp s a keys).1.getDef a.defRef = s.getDef a.defRef
      ∧ (pickOp s a keys).1.getFrag a.fragRef = s.getFrag a.fragRef
      ∧ (pickOp s a keys).2.defRef = s.defs.length
      ∧ (pickOp s a keys).2.fragRef = s.frags.length
      ∧ (strictOp (pickOp s a keys).1 (pickOp s a keys).2).getFrag a.fragRef
          = s.getFrag a.fragRef)
    ∧ ((omitOp s a keys).1.getDef a.defRef
          = (s.getDef a.defRef).filter (fun kv => ¬ keys.contains kv.1)
      ∧ (omitOp s a keys).1.getFrag a.fragRef = s.getFrag a.fragRef
      ∧ (omitOp s a keys).2.defRef = a.defRef
      ∧ (omitOp s a keys).2.fragRef = s.frags.length
      ∧ (strictOp (omitOp s a keys).1 (omitOp s a keys).2).getFrag a.fragRef
          = s.getFrag a.fragRef) := by
  have hne : s.frags.length ≠ a.fragRef := Nat.ne_of_gt hf
  constructor
  · refine ⟨getD_append_lt _ _ _ _ hd, getD_append_lt _ _ _ _ hf, rfl, rfl,
      (getD_set_ne _ _ _ _ _ hne).trans (getD_append_lt _ _ _ _ hf)⟩
  · exact ⟨getD_set_self _ _ _ _ hd, getD_append_lt _ _ _ _ hf, rfl, rfl,
      (getD_set_ne _ _ _ _ _ hne).trans (getD_append_lt _ _ _ _ hf)⟩

/-- C4 witness: the amended theorem at the two-property Object
builder of the counterexample, with `pick('x')`. -/
theorem c4_witness :
    (pickOp (objectNew ⟨[], []⟩ [("x", numberB.schema), ("y", numberB.schema)]).1
        (objectNew ⟨[], []⟩ [("x", numberB.schema), ("y", numberB.schema)]).2
        ["x"]).1.getDef
      (objectNew ⟨[], []⟩ [("x", numberB.schema), ("y", numberB.schema)]).2.defRef
      = (objectNew ⟨[], []⟩ [("x", numberB.schema), ("y", numberB.schema)]).1.getDef
          (objectNew ⟨[], []⟩ [("x", numberB.schema), ("y", numberB.schema)]).2.defRef :=
  ((c4_pick_fresh_omit_shares
    (objectNew ⟨[], []⟩ [("x", numberB.schema), ("y", numberB.schema)]).1
    (objectNew ⟨[], []⟩ [("x", numberB.schema), ("y", numberB.schema)]).2
    ["x"] (by decide) (by decide)).1).1

/-- One JS assignment per list entry on the `properties` object of a
fragment keeps the fragment an object and performs the assignments on
`properties` (shallow union with later entries winning). -/
theorem foldl_setProp_props (l : List (String × JsValue)) :
    ∀ (F P : List (String × JsValue)), getKey F "properties" = .obj P →
      ∃ F2, l.foldl (fun fr kv => setProp fr kv.1 kv.2) (.obj F) = .obj F2
        ∧ getKey F2 "properties" = .obj (unionProps P l) := by
  induction l with
  | nil =>
      intro F P h
      exact ⟨F, rfl, by simpa [unionProps] using h⟩
  | cons kv rest ih =>
      intro F P h
      obtain ⟨k, v⟩ := kv
      have hstep : setProp (.obj F) k v
          = .obj (setKey F "properties" (.obj (setKey P k v))) := by
        simp [setProp, jsGet, h, jsSet]
      obtain ⟨F2, hf, hp⟩ := ih (setKey F "properties" (.obj (setKey P k v)))
        (setKey P k v) (getKey_setKey_self _ _ _)
      refine ⟨F2, ?_, ?_⟩
      · rw [List.foldl_cons, hstep, hf]
      · rw [hp]; rfl

/-- C5 counterexample: for `A = object(\x7bnum: number()\x7d)` and
`B = object(\x7bstr: string()\x7d)`, `A.merge(B)` returns the mutated
receiver itself rather than a new builder, and its `properties`
gains the argument FRAGMENT keys `type` and `properties` with value
`undefined` — not the union of the two definition maps.  `A.extend`
also returns the receiver. -/
theorem c5_counterexample :
    (mergeOp
        (objectNew (objectNew ⟨[], []⟩ [("num", numberB.schema)]).1
          [("str", stringB.schema)]).1
        (objectNew ⟨[], []⟩ [("num", numberB.schema)]).2
        (objectNew (objectNew ⟨[], []⟩ [("num", numberB.schema)]).1
          [("str", stringB.schema)]).2).2
      = (objectNew ⟨[], []⟩ [("num", numberB.schema)]).2
    ∧ jsGet
        ((mergeOp
          (objectNew (objectNew ⟨[], []⟩ [("num", numberB.schema)]).1
            [("str", stringB.schema)]).1
          (objectNew ⟨[], []⟩ [("num", numberB.schema)]).2
          (objectNew (objectNew ⟨[], []⟩ [("num", numberB.schema)]).1
            [("str", stringB.schema)]).2).1.getFrag
          (objectNew ⟨[], []⟩ [("num", numberB.schema)]).2.fragRef)
        "properties"
      = .obj [("num", numberB.schema), ("type", .undefined), ("properties", .undefined)]
    ∧ JsValue.obj [("num", numberB.schema), ("type", .undefined), ("properties", .undefined)]
        ≠ .obj [("num", numberB.schema), ("str", stringB.schema)]
    ∧ (extendOp (objectNew ⟨[], []⟩ [("num", numberB.schema)]).1
        (objectNew ⟨[], []⟩ [("num", numberB.schema)]).2
        [("str", stringB.schema)]).2
      = (objectNew ⟨[], []⟩ [("num", numberB.schema)]).2 := by
  refine ⟨rfl, rfl, by simp [numberB, stringB, Builder.ofSchema, Builder.schema], rfl⟩

/-- C5 (amended): `extend(def)` mutates the receiver in place and
returns it: afterwards the receiver fragment `properties` is the
shallow union of its previous entries and the argument entries with
the argument taking precedence, while the receiver definition map is
not updated at all.  `merge(B)` likewise mutates and returns the
receiver, but iterates the top-level entries of the argument
fragment (for a constructor-built argument: `type` and
`properties`), assigning the `.schema` member of each entry value — which
is `undefined` unless the value happens to own a `schema` key — so no
union of the definition maps takes place. -/
theorem c5_extend_merge_mutate_receiver (s : ObjStore) (a b : ObjRef)
    (d db : DefMap) (F P : List (String × JsValue))
    (hlen : a.fragRef < s.frags.length)
    (hfa : s.getFrag a.fragRef = .obj F)
    (hp : getKey F "properties" = .obj P)
    (hfb : s.getFrag b.fragRef = objectFragOf db) :
    ((extendOp s a d).2 = a
      ∧ (extendOp s a d).1.getDef a.defRef = s.getDef a.defRef
      ∧ ∃ F2, (extendOp s a d).1.getFrag a.fragRef = .obj F2
          ∧ getKey F2 "properties" = .obj (unionProps P d))
    ∧ ((mergeOp s a b).2 = a
      ∧ ∃ F3, (mergeOp s a b).1.getFrag a.fragRef = .obj F3
          ∧ getKey F3 "properties"
              = .obj (setKey (setKey P "type" .undefined) "properties"
                  (jsGet (.obj (propsOf db)) "schema"))) := by
  constructor
  · refine ⟨rfl, rfl, ?_⟩
    obtain ⟨F2, hf2, hp2⟩ := foldl_setProp_props d F P hp
    have hguard : (match jsGet (s.getFrag a.fragRef) "properties" with
        | JsValue.obj _ => s.getFrag a.fragRef
        | _ => jsSet (s.getFrag a.fragRef) "properties" (.obj [])) = .obj F := by
      rw [hfa]; simp [jsGet, hp]
    refine ⟨F2, ?_, hp2⟩
    have hfrags : (extendOp s a d).1
        = ObjStore.mk s.defs (s.frags.set a.fragRef (.obj F2)) := by
      simp only [extendOp]
      rw [hguard, hf2]
    rw [hfrags]
    exact getD_set_self _ _ _ _ hlen
  · refine ⟨rfl, ?_⟩
    have h1 : setProp (.obj F) "type" (jsGet (.str "object") "schema")
        = .obj (setKey F "properties" (.obj (setKey P "type" .undefined))) := by
      simp [setProp, jsGet, hp, jsSet]
    have h2 : setProp (.obj (setKey F "properties" (.obj (setKey P "type" .undefined))))
          "properties" (jsGet (.obj (propsOf db)) "schema")
        = .obj (setKey (setKey F "properties" (.obj (setKey P "type" .undefined)))
            "properties"
            (.obj (setKey (setKey P "type" .undefined) "properties"
              (jsGet (.obj (propsOf db)) "schema")))) := by
      simp [setProp, jsGet, jsSet, getKey_setKey_self]
    have hfold :
        (objEntries (s.getFrag b.fragRef)).foldl
          (fun (fr : JsValue) (kv : String × JsValue) =>
            setProp fr kv.1 (jsGet kv.2 "schema"))
          (s.getFrag a.fragRef)
        = .obj (setKey (setKey F "properties" (.obj (setKey P "type" .undefined)))
            "properties"
            (.obj (setKey (setKey P "type" .undefined) "properties"
              (jsGet (.obj (propsOf db)) "schema")))) := by
      rw [hfb, hfa]
      simp only [objEntries, objectFragOf, List.foldl_cons, List.foldl_nil]
      rw [h1, h2]
    refine ⟨setKey (setKey F "properties" (.obj (setKey P "type" .undefined)))
        "properties"
        (.obj (setKey (setKey P "type" .undefined) "properties"
          (jsGet (.obj (propsOf db)) "schema"))),
      ?_, getKey_setKey_self _ _ _⟩
    have hfrags : (mergeOp s a b).1
        = ObjStore.mk s.defs (s.frags.set a.fragRef
            (.obj (setKey (setKey F "properties" (.obj (setKey P "type" .undefined)))
              "properties"
              (.obj (setKey (setKey P "type" .undefined) "properties"
                (jsGet (.obj (propsOf db)) "schema")))))) := by
      simp only [mergeOp]
      rw [hfold]
    rw [hfrags]
    exact getD_set_self _ _ _ _ hlen

/-- C5 witness: the amended theorem at the concrete builders of the
counterexample. -/
theorem c5_witness :
    ∃ F3,
      (mergeOp
          (objectNew (objectNew ⟨[], []⟩ [("num", numberB.schema)]).1
            [("str", stringB.schema)]).1
          (objectNew ⟨[], []⟩ [("num", numberB.schema)]).2
          (objectNew (objectNew ⟨[], []⟩ [("num", numberB.schema)]).1
            [("str", stringB.schema)]).2).1.getFrag
        (objectNew ⟨[], []⟩ [("num", numberB.schema)]).2.fragRef = .obj F3
      ∧ getKey F3 "properties"
          = .obj (setKey (setKey [("num", numberB.schema)] "type" .undefined)
              "properties"
              (jsGet (.obj (propsOf [("str", stringB.schema)])) "schema")) :=
  ((c5_extend_merge_mutate_receiver
      (objectNew (objectNew ⟨[], []⟩ [("num", numberB.schema)]).1
        [("str", stringB.schema)]).1
      (objectNew ⟨[], []⟩ [("num", numberB.schema)]).2
      (objectNew (objectNew ⟨[], []⟩ [("num", numberB.schema)]).1
        [("str", stringB.schema)]).2
      [("str", stringB.schema)] [("str", stringB.schema)]
      [("type", .str "object"), ("properties", .obj [("num", numberB.schema)])]
      [("num", numberB.schema)]
      (by decide) rfl rfl rfl).2).2

/-- C2 counterexample: a builder with a value-changing preprocess and
a signalling refine.  At call-time input `1`, the refine-stage
failure reports the post-transformed value `2` in the `input` field,
not the original input. -/
theorem c2_counterexample :
    (safeParse
      (Builder.refine
        (Builder.preprocess numberB fun v =>
          match v with
          | .num n => .ok (.num (n + 1))
          | other => .ok other)
        fun _ => .ok (.bool true))
      (.num 1)).input = .num 2
    ∧ JsValue.num 2 ≠ .num 1 := by
  constructor
  · simp [safeParse, transformList, runFns, SafeParseResult.setInput, safeParseRaw,
      dataOrDefault, ajvValidate, numberB, Builder.ofSchema, Builder.preprocess,
      Builder.refine, Builder.preFns, Builder.schema, Builder.deflt, Builder.postFns,
      Builder.refineFns, jsGet, getKey, JsValue.isNullish, jsTypeMatches,
      transformChain, runRefines, SafeParseResult.input]
  · simp

/-- C2 (amended): the `input` field of every `safeParse` result is
the original call-time input, except for a refine-stage failure,
where it is the post-transformed data instead. -/
theorem c2_input_field (b : Builder) (x : JsValue) :
    (safeParse b x).input = x
    ∨ ∃ e, safeParse b x = .fail e (postStage b x).dataD := by
  rw [safeParse_as_stages]
  cases h : postStage b x with
  | fail e i =>
      left
      have h2 := postStage_input b x
      rw [h] at h2
      simpa [SafeParseResult.input] using h2
  | ok pd i =>
      rcases runRefines_cases b.refineFns pd (.ok pd x) with hr | ⟨e, hr⟩
      · left; dsimp only; rw [hr]; rfl
      · right
        refine ⟨e, ?_⟩
        dsimp only
        rw [hr]
        rfl

/-- C1 counterexample: a refine function that throws.  The failure
error of the failure result is the thrown exception itself, not an error wrapping
it as cause. -/
theorem c1_counterexample :
    safeParse (Builder.refine numberB fun _ => .error (.plain "boom")) (.num 1)
      = .fail (.plain "boom") (.num 1)
    ∧ JsErr.plain "boom" ≠ JsErr.wrap (.plain "boom") := by
  constructor
  · simp [safeParse, transformList, runFns, SafeParseResult.setInput, safeParseRaw,
      dataOrDefault, ajvValidate, numberB, Builder.ofSchema, Builder.refine,
      Builder.preFns, Builder.schema, Builder.deflt, Builder.postFns,
      Builder.refineFns, jsGet, getKey, JsValue.isNullish, jsTypeMatches,
      transformChain, runRefines]
  · simp [JsErr.plain, JsErr.wrap, JsErr.msg]

/-- C1 (amended): `safeParse` and `validate` are total — every
pipeline outcome is returned as a result, never raised — and a throw
inside a preprocess or postprocess step produces a failure whose
error wraps the exception as its cause, while a throw inside a refine
step produces a failure whose error is the thrown exception itself
(unwrapped), carrying the post-stage data as `input`. -/
theorem c1_throwing_steps (b : Builder) (x : JsValue) :
    validate b x = (safeParse b x).success
    ∧ (∀ e, runFns b.preFns x = .error e →
        safeParse b x = .fail (JsErr.wrap e) x)
    ∧ (∀ d e, rawStage b x = .ok d x → b.postFns ≠ .nil →
        runChain b.postFns (.ok d d) = .error e →
        safeParse b x = .fail (JsErr.wrap e) x)
    ∧ (∀ pd i r rs e, postStage b x = .ok pd i → b.refineFns = r :: rs →
        r pd = .error e → safeParse b x = .fail e pd) := by
  refine ⟨rfl, ?_, ?_, ?_⟩
  · intro e he
    have hpost : postStage b x = .fail (JsErr.wrap e) x := by
      unfold postStage rawStage preStage
      rw [transformList_error _ _ _ he]
      rfl
    rw [safeParse_as_stages, hpost]
  · intro d e hraw hne hchain
    have hpost : postStage b x = .fail (JsErr.wrap e) x := by
      unfold postStage
      rw [hraw]
      dsimp only
      cases hc : b.postFns with
      | nil => exact absurd hc hne
      | cons f t rest =>
          rw [hc] at hchain
          simp only [transformChain, hchain, SafeParseResult.setInput]
    rw [safeParse_as_stages, hpost]
  · intro pd i r rs e hpost hr hthrow
    rw [safeParse_as_stages, hpost]
    dsimp only
    rw [hr]
    simp only [runRefines, hthrow]

/-- C1 witness: the amended theorem applied to a builder whose only
preprocess throws and to a builder whose only refine throws, both at
input `1`. -/
theorem c1_witness :
    safeParse (Builder.preprocess numberB fun _ => .error (.plain "boom")) (.num 1)
      = .fail (JsErr.wrap (.plain "boom")) (.num 1)
    ∧ safeParse (Builder.refine numberB fun _ => .error (.plain "kaboom")) (.num 1)
      = .fail (.plain "kaboom") (.num 1) := by
  constructor
  · exact (c1_throwing_steps
      (Builder.preprocess numberB fun _ => .error (.plain "boom")) (.num 1)).2.1
      (.plain "boom") rfl
  · refine (c1_throwing_steps
      (Builder.refine numberB fun _ => .error (.plain "kaboom")) (.num 1)).2.2.2
      (.num 1) (.num 1) _ [] (.plain "kaboom") ?_ rfl rfl
    simp [postStage, rawStage, preStage, transformList, runFns, safeParseRaw,
      dataOrDefault, ajvValidate, numberB, Builder.ofSchema, Builder.refine,
      Builder.preFns, Builder.schema, Builder.deflt, Builder.postFns, jsGet, getKey,
      JsValue.isNullish, jsTypeMatches, transformChain, SafeParseResult.setInput]

/-- Concrete pipeline for the C3 analysis: `number()` with default
`5`, a preprocess returning `null`, an identity postprocess targeting
`number()` and a passing refine. -/
def c3Demo : Builder :=
  Builder.refine
    (Builder.postprocess
      (Builder.preprocess (Builder.setDefault numberB (.num 5)) fun _ => .ok .null)
      (fun v => .ok v) numberB)
    fun _ => .ok .undefined

/-- C3 counterexample: with preprocess output `null` and default `5`,
the engine is handed `5 = p(x) ?? default`, not the preprocess output
`p(x) = null`, and the parse succeeds with data `5`. -/
theorem c3_counterexample :
    runFns c3Demo.preFns (.num 7) = .ok .null
    ∧ engineArg c3Demo (.num 7) = .num 5
    ∧ safeParse c3Demo (.num 7) = .ok (.num 5) (.num 7)
    ∧ JsValue.num 5 ≠ .null := by
  refine ⟨rfl, rfl, ?_, by simp⟩
  simp [c3Demo, safeParse, transformList, runFns, SafeParseResult.setInput,
    safeParseRaw, dataOrDefault, ajvValidate, numberB, Builder.ofSchema,
    Builder.refine, Builder.postprocess, Builder.preprocess, Builder.setDefault,
    PostChain.push, Builder.preFns, Builder.schema, Builder.deflt, Builder.postFns,
    Builder.refineFns, jsGet, getKey, jsSet, setKey, JsValue.isNullish,
    jsTypeMatches, transformChain, runChain, runRefines]

/-- C3 (amended): for a builder with preprocess `p`, postprocess pair
`(q, T)` and refine `r`, the value handed to the engine is
`p(x) ?? default` (so `p(x)` itself only when `p(x)` is not nullish
or no default is registered); when the engine accepts and
`T.safeParse` of the output of `q` succeeds with data `d`, the overall
result is the refine loop applied to `d` — the postprocess-stage
output — and when `T.safeParse` of the output of `q` fails, the overall
result is that failure (with the original input restored) and the
refine function plays no part in it. -/
theorem c3_pipeline_order (p q r : JsFn) (T : Builder) (schema deflt x : JsValue) :
    (∀ v, p x = .ok v →
      engineArg (Builder.mk schema [p] (.cons q T .nil) [r] deflt false) x
        = dataOrDefault deflt v)
    ∧ (∀ v w d i, p x = .ok v →
        ajvValidate schema (dataOrDefault deflt v) = true →
        q (dataOrDefault deflt v) = .ok w →
        safeParse T w = .ok d i →
        safeParse (Builder.mk schema [p] (.cons q T .nil) [r] deflt false) x
          = runRefines [r] d (.ok d x))
    ∧ (∀ v w e i, p x = .ok v →
        ajvValidate schema (dataOrDefault deflt v) = true →
        q (dataOrDefault deflt v) = .ok w →
        safeParse T w = .fail e i →
        safeParse (Builder.mk schema [p] (.cons q T .nil) [r] deflt false) x
          = .fail e x) := by
  have hpre : ∀ v, p x = .ok v →
      transformList [p] x = .ok v x := by
    intro v hv
    exact transformList_ok _ _ _ (by simp [runFns, hv])
  refine ⟨?_, ?_, ?_⟩
  · intro v hv
    simp [engineArg, hpre v hv, Builder.deflt, Builder.preFns, SafeParseResult.dataD]
  · intro v w d i hv hvalid hq hT
    have hpost : postStage (Builder.mk schema [p] (.cons q T .nil) [r] deflt false) x
        = .ok d x := by
      unfold postStage rawStage preStage
      simp only [Builder.preFns, Builder.schema, Builder.deflt, Builder.postFns,
        hpre v hv, SafeParseResult.setInput, safeParseRaw, hvalid, if_true,
        transformChain, runChain, hq, hT]
    rw [safeParse_as_stages, hpost]
    exact rfl
  · intro v w e i hv hvalid hq hT
    have hpost : postStage (Builder.mk schema [p] (.cons q T .nil) [r] deflt false) x
        = .fail e x := by
      unfold postStage rawStage preStage
      simp only [Builder.preFns, Builder.schema, Builder.deflt, Builder.postFns,
        hpre v hv, SafeParseResult.setInput, safeParseRaw, hvalid, if_true,
        transformChain, runChain, hq, hT]
    rw [safeParse_as_stages, hpost]

/-- C3 witness: the amended theorem at the concrete pipeline of the
counterexample, deriving the full parse result. -/
theorem c3_witness : safeParse c3Demo (.num 7) = .ok (.num 5) (.num 7) := by
  have h := (c3_pipeline_order (fun _ => .ok .null) (fun v => .ok v)
    (fun _ => .ok .undefined) numberB
    (jsSet (.obj [("type", .str "number")]) "default" (.num 5)) (.num 5)
    (.num 7)).2.1 .null (.num 5) (.num 5) (.num 5) rfl rfl rfl
    (by simp [safeParse, transformList, runFns, SafeParseResult.setInput,
      safeParseRaw, dataOrDefault, ajvValidate, numberB, Builder.ofSchema,
      Builder.preFns, Builder.schema, Builder.deflt, Builder.postFns,
      Builder.refineFns, jsGet, getKey, JsValue.isNullish, jsTypeMatches,
      transformChain, runRefines])
  rw [show safeParse c3Demo (.num 7)
      = safeParse (Builder.mk (jsSet (.obj [("type", .str "number")]) "default"
          (.num 5)) [fun _ => .ok .null]
          (.cons (fun v => .ok v) numberB .nil) [fun _ => .ok .undefined]
          (.num 5) false) (.num 7) from rfl, h]
  simp [runRefines]

/-- C10 counterexample: for the Null builder (which has no registered
default), a `null` input is not validated as-is: the nullish
coalescing `input ?? this._default` turns it into `undefined`, which
the engine rejects against `type: null` although it would accept
`null` itself. -/
theorem c10_counterexample :
    engineArg nullB .null = .undefined
    ∧ ajvValidate nullB.schema .null = true
    ∧ validate nullB .null = false
    ∧ JsValue.undefined ≠ .null := by
  refine ⟨rfl, rfl, ?_, by simp⟩
  simp [validate, safeParse, transformList, SafeParseResult.setInput, safeParseRaw,
    dataOrDefault, ajvValidate, nullB, Builder.ofSchema, Builder.preFns,
    Builder.schema, Builder.deflt, Builder.postFns, Builder.refineFns, jsGet,
    getKey, JsValue.isNullish, jsTypeMatches, transformChain, runRefines,
    SafeParseResult.success]

/-- C10 (amended): for a builder without preprocess functions the
engine receives `input ?? default`: the registered default for
nullish input (`undefined` or `null`) and the input itself
otherwise; on engine success (no postprocess, no refine) that value
is returned as `data`.  A builder with no registered default hence
validates `undefined` as-is but validates `undefined` in place of a
`null` input — not `null` itself. -/
theorem c10_default_substitution (b : Builder) (x : JsValue)
    (hpre : b.preFns = []) :
    engineArg b x = dataOrDefault b.deflt x
    ∧ (x.isNullish = true → engineArg b x = b.deflt)
    ∧ (x.isNullish = false → engineArg b x = x)
    ∧ (b.postFns = .nil → b.refineFns = [] →
        ajvValidate b.schema (dataOrDefault b.deflt x) = true →
        safeParse b x = .ok (dataOrDefault b.deflt x) x) := by
  have harg : engineArg b x = dataOrDefault b.deflt x := by
    simp [engineArg, hpre, transformList, SafeParseResult.dataD]
  refine ⟨harg, ?_, ?_, ?_⟩
  · intro hn; rw [harg]; simp [dataOrDefault, hn]
  · intro hn; rw [harg]; simp [dataOrDefault, hn]
  · intro hpost href hvalid
    have hps : postStage b x = .ok (dataOrDefault b.deflt x) x := by
      unfold postStage rawStage preStage
      simp only [hpre, hpost, transformList, SafeParseResult.setInput, safeParseRaw,
        hvalid, if_true, transformChain]
    rw [safeParse_as_stages, hps]
    dsimp only
    rw [href]
    rfl

/-- C10 witness: the amended theorem at `number().default(5)` with
input `undefined`, yielding `parse(undefined) = 5`. -/
theorem c10_witness :
    safeParse (Builder.setDefault numberB (.num 5)) .undefined = .ok (.num 5) .undefined
    ∧ parse (Builder.setDefault numberB (.num 5)) .undefined = .ok (.num 5) := by
  have h := (c10_default_substitution (Builder.setDefault numberB (.num 5))
    .undefined rfl).2.2.2 rfl rfl rfl
  have h2 : safeParse (Builder.setDefault numberB (.num 5)) .undefined
      = .ok (.num 5) .undefined := by
    simpa [dataOrDefault, Builder.setDefault, Builder.deflt, numberB,
      Builder.ofSchema, JsValue.isNullish] using h
  exact ⟨h2, by simp [parse, h2]⟩

end AjvTs
